import Mathlib

/-!
Shallow embedding of the `ChatBot` engine of `oxycsbot.py`.

The engine has two parts:

* tag extraction (`ChatBot._get_tags`): for each lexicon phrase the code runs
  `re.search(r'\b' + phrase.lower() + r'\b', message.lower())` and, on a match,
  adds one occurrence of every tag of that phrase to a `Counter`;
* dialogue dispatch (`go_to_state`, `finish`, `respond`) plus the load-time
  check `_check_tags`.

The regular-expression fragment the code builds is always a word boundary,
followed by the phrase's characters taken verbatim (the code does not escape
the phrase), followed by a word boundary.  We embed exactly that fragment:
each phrase character becomes a one-character token — the metacharacter `.`
becomes the any-character token, every other character a literal token — and
the search tries every start position with Python's `\b` boundary semantics
(a position is a boundary when exactly one of its two neighbouring characters
is a word character, out-of-range counting as non-word).
-/

namespace OxyBot

/-- Word-character test of Python's `\b` for ASCII text: letters, digits, underscore. -/
def isWordChar (c : Char) : Bool :=
  c.isAlphanum || c == '_'

/-- Whether position `i` of the character list holds a word character (out of range: no). -/
def wordAt (m : List Char) (i : Nat) : Bool :=
  match m.get? i with
  | some c => isWordChar c
  | none => false

/-- Whether the character just before position `i` is a word character. -/
def prevWord (m : List Char) (i : Nat) : Bool :=
  match i with
  | 0 => false
  | j + 1 => wordAt m j

/-- Python's `\b`: position `i` (between characters `i-1` and `i`) is a word boundary. -/
def boundary (m : List Char) (i : Nat) : Bool :=
  prevWord m i != wordAt m i

/-- One-character regex tokens of the fragment the code builds: a literal
character, or `.` (any character other than a newline). -/
inductive RTok where
  | lit (c : Char)
  | dot
deriving DecidableEq

/-- Compilation of the unescaped phrase into tokens: `.` keeps its regex
meaning, every other character is matched literally. -/
def compileChars (p : List Char) : List RTok :=
  p.map (fun c => if c == '.' then RTok.dot else RTok.lit c)

/-- The token list matches a prefix of the given characters. -/
def toksMatch : List RTok → List Char → Bool
  | [], _ => true
  | _ :: _, [] => false
  | RTok.lit c :: ts, x :: xs => (x == c) && toksMatch ts xs
  | RTok.dot :: ts, x :: xs => (x != '\n') && toksMatch ts xs

/-- Embedding of `re.search` for the pattern `\b` ++ tokens ++ `\b`: some start
position is a boundary, the tokens match there, and the end position is a boundary. -/
def searchBB (toks : List RTok) (m : List Char) : Bool :=
  (List.range (m.length + 1)).any
    (fun i => boundary m i && toksMatch toks (m.drop i) && boundary m (i + toks.length))

/-- Embedding of Python's `str.lower` for ASCII text. -/
def pyLower (s : String) : String :=
  ⟨s.data.map Char.toLower⟩

/-- Embedding of the per-phrase test of `ChatBot._get_tags`:
`re.search(r'\b' + phrase.lower() + r'\b', message.lower())` succeeds. -/
def phraseMatches (phrase message : String) : Bool :=
  searchBB (compileChars (pyLower phrase).data) (pyLower message).data

/-- Embedding of `ChatBot._get_tags`: fold over the lexicon entries; whenever a
phrase matches, `counter.update(tags)` adds one occurrence of each listed tag.
The resulting counter is the function from tag to count. -/
def get_tags (TAGS : List (String × List String)) (message : String) : String → Nat :=
  TAGS.foldl
    (fun counter e =>
      if phraseMatches e.1 message then (fun u => counter u + e.2.count u) else counter)
    (fun _ => 0)

/-- Specification-side notion for comparison: the literal lower-cased phrase
occurs in the lower-cased message with word boundaries at both ends. -/
def literalOccursBB (phrase message : String) : Bool :=
  let p := (pyLower phrase).data
  let m := (pyLower message).data
  (List.range (m.length + 1)).any
    (fun i => boundary m i && ((m.drop i).take p.length == p) && boundary m (i + p.length))

/-- Characters with special meaning in Python regular-expression syntax. -/
def isRegexMeta (c : Char) : Bool :=
  c == '.' || c == '^' || c == '$' || c == '*' || c == '+' || c == '?' ||
  c == '\x7b' || c == '\x7d' || c == '[' || c == ']' || c == '\\' ||
  c == '|' || c == '(' || c == ')'

/-- A string free of regex metacharacters, hence matched literally by the code. -/
def metaFree (s : String) : Bool :=
  s.data.all (fun c => !(isRegexMeta c))

/-!
Dialogue engine.  A `ChatBot` instance carries the state list, the default
state and the current state.  Python looks handler methods up by name with
`getattr`; the embedding passes the method tables explicitly as functions from
the name suffix (state or manner) to a `Method`.  A `Method` is absent
(`getattr` raises `AttributeError`), raises when called, or returns its text.
Exceptions leave `self` as it was, so each operation returns the (possibly
updated) bot together with `Except`: on an error the returned bot is the input.
-/

/-- Mutable part of a `ChatBot` object that the engine itself touches. -/
structure ChatBot where
  STATES : List String
  default_state : String
  state : String
deriving DecidableEq

/-- A zero-argument producer method as seen through `getattr`: missing, raising
when invoked, or returning its display text. -/
inductive Method where
  | missing
  | raises
  | returns (text : String)
deriving DecidableEq

/-- Errors the engine can raise: `getattr` failure, the two assertions of
`go_to_state`, or an exception out of an invoked producer. -/
inductive PyErr where
  | attributeError
  | assertStateNotDefined
  | assertDefaultState
  | methodRaised
deriving DecidableEq

/-- Embedding of `ChatBot.go_to_state`: assert the state is declared, assert it
is not the default state, look up `on_enter_<state>`, invoke it, and only then
assign `self.state` and return the response. -/
def go_to_state (on_enter : String → Method) (bot : ChatBot) (state : String) :
    ChatBot × Except PyErr String :=
  if bot.STATES.contains state = false then
    (bot, Except.error PyErr.assertStateNotDefined)
  else if state = bot.default_state then
    (bot, Except.error PyErr.assertDefaultState)
  else
    match on_enter state with
    | Method.missing => (bot, Except.error PyErr.attributeError)
    | Method.raises => (bot, Except.error PyErr.methodRaised)
    | Method.returns text => ({ bot with state := state }, Except.ok text)

/-- Embedding of `ChatBot.finish`: look up `finish_<manner>`, invoke it, then
set `self.state` back to the default state and return the response. -/
def finish (finishers : String → Method) (bot : ChatBot) (manner : String) :
    ChatBot × Except PyErr String :=
  match finishers manner with
  | Method.missing => (bot, Except.error PyErr.attributeError)
  | Method.raises => (bot, Except.error PyErr.methodRaised)
  | Method.returns text => ({ bot with state := bot.default_state }, Except.ok text)

/-- A respond handler as seen through `getattr`: missing, or a function of the
message and the extracted tag counter returning the response text. -/
inductive RespondMethod where
  | missing
  | handler (f : String → (String → Nat) → String)

/-- Embedding of `ChatBot.respond`: look up `respond_from_<current state>` and
call it with the message and `_get_tags(message)`. -/
def respond (respond_from : String → RespondMethod) (TAGS : List (String × List String))
    (bot : ChatBot) (message : String) : Except PyErr String :=
  match respond_from bot.state with
  | RespondMethod.missing => Except.error PyErr.attributeError
  | RespondMethod.handler f => Except.ok (f message (get_tags TAGS message))

/-!
Load-time lexicon check.  A raw `TAGS` value in Python is a string, a list, a
tuple, or something else entirely; `_check_tags` promotes a bare string to a
one-element list and asserts that what remains is a list or tuple, raising
`AssertionError` (whose message names the offending class) otherwise.
-/

/-- A Python value found as a lexicon entry's tag value. -/
inductive TagVal where
  | str (s : String)
  | list (l : List String)
  | tup (l : List String)
  | other (typeName : String)
deriving DecidableEq

/-- Normalization `_check_tags` applies to a well-formed tag value. -/
def promoteVal : TagVal → List String
  | TagVal.str s => [s]
  | TagVal.list l => l
  | TagVal.tup l => l
  | TagVal.other _ => []

/-- A tag value that is neither a string nor a list/tuple. -/
def isMalformed : TagVal → Bool
  | TagVal.other _ => true
  | _ => false

/-- Embedding of `ChatBot._check_tags`: walk the lexicon in order, promote each
string value to a one-element list, and fail hard on the first value that is
neither a string nor a list/tuple. -/
def check_tags : List (String × TagVal) → Except String (List (String × List String))
  | [] => Except.ok []
  | (p, TagVal.str s) :: rest => (check_tags rest).map (fun r => (p, [s]) :: r)
  | (p, TagVal.list l) :: rest => (check_tags rest).map (fun r => (p, l) :: r)
  | (p, TagVal.tup l) :: rest => (check_tags rest).map (fun r => (p, l) :: r)
  | (_, TagVal.other t) :: _ => Except.error t

/-!
Helper lemmas.  First: on a metacharacter-free phrase the compiled tokens are
all literal, so a token match is exactly a prefix match of the phrase itself.
-/

theorem toksMatch_compile_eq_take (p : List Char) (hp : ∀ c ∈ p, isRegexMeta c = false) :
    ∀ rest : List Char, toksMatch (compileChars p) rest = (rest.take p.length == p) := by
  induction p with
  | nil =>
    intro rest
    simp [compileChars, toksMatch, List.take]
  | cons c p ih =>
    intro rest
    have hc : isRegexMeta c = false := hp c (List.mem_cons_self c p)
    have hcdot : (c == '.') = false := by
      cases hdot : c == '.' with
      | false => rfl
      | true =>
        have : c = '.' := by simpa using hdot
        subst this
        simp [isRegexMeta] at hc
    have htail : ∀ x ∈ p, isRegexMeta x = false := fun x hx => hp x (List.mem_cons_of_mem c hx)
    cases rest with
    | nil =>
      simp [compileChars, toksMatch, List.take]
    | cons x xs =>
      have ihx := ih htail xs
      simp only [compileChars, List.map_cons, hcdot, if_false, toksMatch, List.length_cons,
        List.take_succ_cons]
      rw [show compileChars p = p.map (fun c => if c == '.' then RTok.dot else RTok.lit c) from rfl] at ihx
      rw [ihx]
      show ((x == c) && (xs.take p.length == p)) = ((x :: xs.take p.length) == (c :: p))
      rfl

/-- Length of the compiled token list equals the phrase length. -/
theorem compileChars_length (p : List Char) : (compileChars p).length = p.length :=
  List.length_map p _

/-- On a metacharacter-free phrase, the regex search of the code coincides with
literal occurrence of the phrase at word boundaries. -/
theorem phraseMatches_eq_literal (p msg : String) (hp : metaFree (pyLower p) = true) :
    phraseMatches p msg = literalOccursBB p msg := by
  have hall : ∀ c ∈ (pyLower p).data, isRegexMeta c = false := by
    intro c hc
    have := (List.all_eq_true.mp hp) c hc
    simpa using this
  unfold phraseMatches literalOccursBB searchBB
  apply congrArg
  funext i
  rw [toksMatch_compile_eq_take (pyLower p).data hall ((pyLower msg).data.drop i),
    compileChars_length]

/-!
Second: the counter built by `get_tags` is the pointwise sum of the per-entry
contributions, which turns order independence and exact counting into facts
about `List.sum`.
-/

theorem get_tags_foldl_aux (msg t : String) (l : List (String × List String)) :
    ∀ c : String → Nat,
      (l.foldl
        (fun counter e =>
          if phraseMatches e.1 msg then (fun u => counter u + e.2.count u) else counter) c) t
      = c t + (l.map (fun e => if phraseMatches e.1 msg then e.2.count t else 0)).sum := by
  induction l with
  | nil => intro c; simp
  | cons e l ih =>
    intro c
    cases h : phraseMatches e.1 msg with
    | false => simp [List.foldl_cons, h, ih]
    | true => simp [List.foldl_cons, h, ih, Nat.add_assoc]

/-- The tag counter as a sum over lexicon entries. -/
theorem get_tags_eq_sum (TAGS : List (String × List String)) (msg t : String) :
    get_tags TAGS msg t
      = (TAGS.map (fun e => if phraseMatches e.1 msg then e.2.count t else 0)).sum := by
  unfold get_tags
  rw [get_tags_foldl_aux msg t TAGS (fun _ => 0)]
  simp

theorem sum_map_ite_one {α : Type} (l : List α) (q : α → Bool) :
    (l.map (fun e => if q e then 1 else 0)).sum = (l.filter q).length := by
  induction l with
  | nil => simp
  | cons e l ih =>
    cases h : q e with
    | false => simp [List.filter_cons, h, ih]
    | true => simp [List.filter_cons, h, ih, Nat.add_comm]

end OxyBot

namespace OxyBot

example : phraseMatches "no" "No thanks" = true := by decide
example : phraseMatches "no" "know" = false := by decide
example : phraseMatches "no" "nobody" = false := by decide
example : phraseMatches "a.c" "abc" = true := by decide
example : literalOccursBB "a.c" "abc" = false := by decide
example : get_tags [("okay", ["medium_rare", "thanks", "yes"]), ("no", ["no"])] "Okay, no" "thanks" = 1 := by decide
example : get_tags [("okay", ["medium_rare", "thanks", "yes"]), ("no", ["no"])] "Okay, no" "no" = 1 := by decide
example : get_tags [("okay", ["medium_rare", "thanks", "yes"]), ("no", ["no"])] "nothing" "no" = 0 := by decide

/-- A lexicon whose values are all well-formed is checked successfully, each
string value promoted to a one-element list. -/
theorem check_tags_wellformed_ok (TAGS : List (String × TagVal))
    (h : ∀ e ∈ TAGS, isMalformed e.2 = false) :
    check_tags TAGS = Except.ok (TAGS.map (fun e => (e.1, promoteVal e.2))) := by
  induction TAGS with
  | nil => rfl
  | cons ev rest ih =>
    obtain ⟨p, v⟩ := ev
    have hv : isMalformed v = false := h (p, v) (List.mem_cons_self _ _)
    have hrest := ih (fun e he => h e (List.mem_cons_of_mem _ he))
    cases v with
    | str s => simp [check_tags, hrest, Except.map, promoteVal]
    | list l => simp [check_tags, hrest, Except.map, promoteVal]
    | tup l => simp [check_tags, hrest, Except.map, promoteVal]
    | other t => simp [isMalformed] at hv

/-- A lexicon containing a malformed value fails the check with some error. -/
theorem check_tags_malformed_error (TAGS : List (String × TagVal))
    (h : ∃ e ∈ TAGS, isMalformed e.2 = true) :
    ∃ m, check_tags TAGS = Except.error m := by
  induction TAGS with
  | nil =>
    obtain ⟨e, he, -⟩ := h
    exact absurd he (List.not_mem_nil e)
  | cons ev rest ih =>
    obtain ⟨p, v⟩ := ev
    obtain ⟨e, he, hm⟩ := h
    cases v with
    | other t => exact ⟨t, rfl⟩
    | str s =>
      have hr : ∃ e ∈ rest, isMalformed e.2 = true := by
        rcases List.mem_cons.mp he with h0 | h0
        · rw [h0] at hm; simp [isMalformed] at hm
        · exact ⟨e, h0, hm⟩
      obtain ⟨m, hm'⟩ := ih hr
      exact ⟨m, by simp [check_tags, hm', Except.map]⟩
    | list l =>
      have hr : ∃ e ∈ rest, isMalformed e.2 = true := by
        rcases List.mem_cons.mp he with h0 | h0
        · rw [h0] at hm; simp [isMalformed] at hm
        · exact ⟨e, h0, hm⟩
      obtain ⟨m, hm'⟩ := ih hr
      exact ⟨m, by simp [check_tags, hm', Except.map]⟩
    | tup l =>
      have hr : ∃ e ∈ rest, isMalformed e.2 = true := by
        rcases List.mem_cons.mp he with h0 | h0
        · rw [h0] at hm; simp [isMalformed] at hm
        · exact ⟨e, h0, hm⟩
      obtain ⟨m, hm'⟩ := ih hr
      exact ⟨m, by simp [check_tags, hm', Except.map]⟩

/-- C1: tag extraction computes an exact multiset.  For a lexicon with distinct
phrases whose tag lists are duplicate-free, the count `get_tags` returns for a
tag is exactly the number of lexicon phrases that match the message and map to
that tag; in particular a message matching none of the phrases yields the count
zero for every tag. -/
theorem get_tags_exact_count (TAGS : List (String × List String)) (msg t : String)
    (_hkeys : (TAGS.map Prod.fst).Nodup)
    (htags : ∀ e ∈ TAGS, e.2.Nodup) :
    get_tags TAGS msg t
      = (TAGS.filter (fun e => phraseMatches e.1 msg && decide (t ∈ e.2))).length ∧
    ((∀ e ∈ TAGS, phraseMatches e.1 msg = false) → get_tags TAGS msg t = 0) := by
  have hmain : get_tags TAGS msg t
      = (TAGS.filter (fun e => phraseMatches e.1 msg && decide (t ∈ e.2))).length := by
    rw [get_tags_eq_sum,
      ← sum_map_ite_one TAGS (fun e => phraseMatches e.1 msg && decide (t ∈ e.2))]
    apply congrArg List.sum
    apply List.map_congr_left
    intro e he
    by_cases hm : phraseMatches e.1 msg = true
    · by_cases ht : t ∈ e.2
      · simp [hm, ht, List.count_eq_one_of_mem (htags e he) ht]
      · simp [hm, ht, List.count_eq_zero.mpr ht]
    · simp only [Bool.not_eq_true] at hm
      simp [hm]
  refine ⟨hmain, fun hnone => ?_⟩
  rw [hmain]
  have hnil : TAGS.filter (fun e => phraseMatches e.1 msg && decide (t ∈ e.2)) = [] := by
    rw [List.filter_eq_nil_iff]
    intro e he
    simp [hnone e he]
  rw [hnil]
  rfl

/-- Witness for C1 on a concrete lexicon and message: two of three phrases
match and map to the tag, so its count is two. -/
theorem get_tags_exact_count_witness :
    get_tags [("okay", ["medium_rare", "thanks", "yes"]), ("ty", ["thanks"]),
      ("hello", ["greeting"])] "Okay, ty!" "thanks" = 2 := by
  have h := get_tags_exact_count
    [("okay", ["medium_rare", "thanks", "yes"]), ("ty", ["thanks"]), ("hello", ["greeting"])]
    "Okay, ty!" "thanks" (by decide) (by decide)
  rw [h.1]
  decide

/-- C2: whatever state the bot is in, `finish` with a registered finish
producer resets the state to the default state and returns the producer's
text. -/
theorem finish_resets_state_and_returns (finishers : String → Method) (bot : ChatBot)
    (manner text : String) (h : finishers manner = Method.returns text) :
    (finish finishers bot manner).1.state = bot.default_state ∧
    (finish finishers bot manner).2 = Except.ok text := by
  simp [finish, h]

/-- Witness for C2: finishing from the non-default state `sciac` lands in the
default state `waiting` with the producer's text. -/
theorem finish_resets_state_and_returns_witness :
    (finish (fun _ => Method.returns "bye") ⟨["waiting", "sciac"], "waiting", "sciac"⟩
        "success").1.state = "waiting" ∧
    (finish (fun _ => Method.returns "bye") ⟨["waiting", "sciac"], "waiting", "sciac"⟩
        "success").2 = Except.ok "bye" :=
  finish_resets_state_and_returns (fun _ => Method.returns "bye")
    ⟨["waiting", "sciac"], "waiting", "sciac"⟩ "success" "bye" rfl

/-- C3: `go_to_state` on a declared non-default state with a registered
on-enter producer leaves the current state equal to the requested state and
returns that producer's output. -/
theorem go_to_state_enters_and_returns (on_enter : String → Method) (bot : ChatBot)
    (s text : String) (h1 : bot.STATES.contains s = true) (h2 : s ≠ bot.default_state)
    (h3 : on_enter s = Method.returns text) :
    (go_to_state on_enter bot s).1.state = s ∧
    (go_to_state on_enter bot s).2 = Except.ok text := by
  have hmem : s ∈ bot.STATES := by simpa using h1
  simp [go_to_state, hmem, h2, h3]

/-- Witness for C3: entering `sciac` from `waiting` sets the state to `sciac`
and returns the on-enter text. -/
theorem go_to_state_enters_and_returns_witness :
    (go_to_state (fun _ => Method.returns "how was the game") ⟨["waiting", "sciac"],
        "waiting", "waiting"⟩ "sciac").1.state = "sciac" ∧
    (go_to_state (fun _ => Method.returns "how was the game") ⟨["waiting", "sciac"],
        "waiting", "waiting"⟩ "sciac").2 = Except.ok "how was the game" :=
  go_to_state_enters_and_returns (fun _ => Method.returns "how was the game")
    ⟨["waiting", "sciac"], "waiting", "waiting"⟩ "sciac" "how was the game"
    (by decide) (by decide) rfl

/-- C4: `go_to_state` on the default state (declared among the states) raises
the dedicated usage-error assertion, distinct from every other engine error,
and leaves the bot, in particular its current state, unchanged. -/
theorem go_to_state_default_usage_error (on_enter : String → Method) (bot : ChatBot)
    (h : bot.STATES.contains bot.default_state = true) :
    go_to_state on_enter bot bot.default_state
      = (bot, Except.error PyErr.assertDefaultState) := by
  have hmem : bot.default_state ∈ bot.STATES := by simpa using h
  simp [go_to_state, hmem]

/-- Witness for C4: calling `go_to_state` on the default state `waiting` from
state `sciac` yields the usage error and the unchanged bot. -/
theorem go_to_state_default_usage_error_witness :
    go_to_state (fun _ => Method.returns "hi") ⟨["waiting", "sciac"], "waiting", "sciac"⟩
        "waiting"
      = (⟨["waiting", "sciac"], "waiting", "sciac"⟩, Except.error PyErr.assertDefaultState) :=
  go_to_state_default_usage_error (fun _ => Method.returns "hi")
    ⟨["waiting", "sciac"], "waiting", "sciac"⟩ (by decide)

/-- C5: extraction is case-insensitive and honours word boundaries: matching
only depends on the lower-casings of phrase and message; on metacharacter-free
phrases it is exactly literal occurrence at word boundaries; and concretely the
phrase `no` matches `No thanks` but neither `know` nor `nobody`. -/
theorem extraction_case_insensitive_word_boundaries (p₁ m₁ p₂ m₂ p msg : String)
    (hp : pyLower p₁ = pyLower p₂) (hm : pyLower m₁ = pyLower m₂)
    (hsafe : metaFree (pyLower p) = true) :
    phraseMatches p₁ m₁ = phraseMatches p₂ m₂ ∧
    phraseMatches p msg = literalOccursBB p msg ∧
    get_tags [("no", ["no"])] "No thanks" "no" = 1 ∧
    get_tags [("no", ["no"])] "know" "no" = 0 ∧
    get_tags [("no", ["no"])] "nobody" "no" = 0 := by
  refine ⟨?_, phraseMatches_eq_literal p msg hsafe, by decide, by decide, by decide⟩
  unfold phraseMatches
  rw [hp, hm]

/-- Witness for C5 at concrete strings: the general parts applied to the
case-variants of `no` in `HELLO there` and to the phrase `no` in `nobody`. -/
theorem extraction_case_insensitive_word_boundaries_witness :
    phraseMatches "No" "HELLO there" = phraseMatches "nO" "hello THERE" ∧
    phraseMatches "no" "nobody" = literalOccursBB "no" "nobody" ∧
    get_tags [("no", ["no"])] "No thanks" "no" = 1 ∧
    get_tags [("no", ["no"])] "know" "no" = 0 ∧
    get_tags [("no", ["no"])] "nobody" "no" = 0 :=
  extraction_case_insensitive_word_boundaries "No" "HELLO there" "nO" "hello THERE"
    "no" "nobody" (by decide) (by decide) (by decide)

/-- C6 counterexample: the code does not escape phrases.  The phrase `a.c`
matches the message `abc` (giving its tag the count one) although the literal
phrase `a.c` does not occur in `abc` at all. -/
theorem unescaped_phrase_counterexample :
    get_tags [("a.c", ["t"])] "abc" "t" = 1 ∧ literalOccursBB "a.c" "abc" = false := by
  decide

/-- C6 amended: phrases reach the matcher verbatim, so a regex metacharacter
keeps its special meaning (a `.` matches any single character, as the
counterexample conjunct shows), while metacharacter-free phrases are matched
exactly as literal occurrences at word boundaries. -/
theorem unescaped_phrase_matching (p msg : String) (hp : metaFree (pyLower p) = true) :
    phraseMatches p msg = literalOccursBB p msg ∧
    phraseMatches "a.c" "abc" = true ∧
    literalOccursBB "a.c" "abc" = false :=
  ⟨phraseMatches_eq_literal p msg hp, by decide, by decide⟩

/-- Witness for C6 amended, on the metacharacter-free phrase `sure thing`. -/
theorem unescaped_phrase_matching_witness :
    phraseMatches "sure thing" "Sure thing boss" = literalOccursBB "sure thing" "Sure thing boss" ∧
    phraseMatches "a.c" "abc" = true ∧
    literalOccursBB "a.c" "abc" = false :=
  unescaped_phrase_matching "sure thing" "Sure thing boss" (by decide)

/-- C7: `respond` fails with the missing-handler error when the current state
has no respond handler, and otherwise returns exactly the handler's result on
the message and the extracted tag counter. -/
theorem respond_dispatch (respond_from : String → RespondMethod)
    (TAGS : List (String × List String)) (bot : ChatBot) (message : String) :
    (respond_from bot.state = RespondMethod.missing →
      respond respond_from TAGS bot message = Except.error PyErr.attributeError) ∧
    (∀ f, respond_from bot.state = RespondMethod.handler f →
      respond respond_from TAGS bot message
        = Except.ok (f message (get_tags TAGS message))) := by
  constructor
  · intro h
    simp [respond, h]
  · intro f h
    simp [respond, h]

/-- Witness for C7: a concrete handler registered for the current state is
invoked on the message and the extracted tags. -/
theorem respond_dispatch_witness :
    respond
        (fun _ => RespondMethod.handler
          (fun _ tags => if 0 < tags "greeting" then "hello" else "hm"))
        [("hello", ["greeting"])] ⟨["waiting"], "waiting", "waiting"⟩ "Hello there"
      = Except.ok "hello" := by
  have h := (respond_dispatch
      (fun _ => RespondMethod.handler
        (fun _ tags => if 0 < tags "greeting" then "hello" else "hm"))
      [("hello", ["greeting"])] ⟨["waiting"], "waiting", "waiting"⟩ "Hello there").2
      (fun _ tags => if 0 < tags "greeting" then "hello" else "hm") rfl
  rw [h]
  rfl

/-- C8: the extracted counts do not depend on the order of the lexicon
entries: permuted lexicons yield the same count for every tag. -/
theorem get_tags_perm_invariant (l₁ l₂ : List (String × List String)) (msg t : String)
    (h : l₁.Perm l₂) : get_tags l₁ msg t = get_tags l₂ msg t := by
  rw [get_tags_eq_sum, get_tags_eq_sum]
  exact (h.map _).sum_eq

/-- Witness for C8: swapping two lexicon entries leaves a concrete count
unchanged. -/
theorem get_tags_perm_invariant_witness :
    get_tags [("hello", ["greeting"]), ("no", ["no"])] "Hello, no" "no"
      = get_tags [("no", ["no"]), ("hello", ["greeting"])] "Hello, no" "no" :=
  get_tags_perm_invariant [("hello", ["greeting"]), ("no", ["no"])]
    [("no", ["no"]), ("hello", ["greeting"])] "Hello, no" "no"
    (List.Perm.swap ("no", ["no"]) ("hello", ["greeting"]) [])

/-- C9 counterexample: validation does not enforce non-emptiness.  A lexicon
entry whose value is the empty list passes `check_tags`, and the checked
lexicon still maps its phrase to the empty list. -/
theorem check_tags_empty_value_counterexample :
    ∃ out, check_tags [("p", TagVal.list [])] = Except.ok out ∧ ∃ e ∈ out, e.2 = [] :=
  ⟨[("p", [])], rfl, ("p", []), by simp⟩

/-- C9 amended: when `check_tags` succeeds, every entry's value is the
normalization of its input, a bare string promoted to a one-element list and a
list or tuple kept as supplied, possibly empty; and a lexicon containing a
malformed value, neither string nor list/tuple, is rejected with a hard
error. -/
theorem check_tags_normalizes (TAGS : List (String × TagVal)) :
    (∀ out, check_tags TAGS = Except.ok out →
      out = TAGS.map (fun e => (e.1, promoteVal e.2)) ∧
      ∀ e ∈ TAGS, isMalformed e.2 = false) ∧
    ((∃ e ∈ TAGS, isMalformed e.2 = true) → ∃ m, check_tags TAGS = Except.error m) := by
  refine ⟨?_, check_tags_malformed_error TAGS⟩
  intro out hout
  have hwf : ∀ e ∈ TAGS, isMalformed e.2 = false := by
    by_contra hc
    push_neg at hc
    obtain ⟨e, he, hm⟩ := hc
    obtain ⟨m, hm'⟩ := check_tags_malformed_error TAGS ⟨e, he, by simpa using hm⟩
    rw [hout] at hm'
    exact Except.noConfusion hm'
  have hok := check_tags_wellformed_ok TAGS hwf
  rw [hout] at hok
  exact ⟨Except.ok.inj hok, hwf⟩

/-- Witness for C9 amended: a concrete two-entry lexicon is normalized with
the string promoted, and a lexicon with a malformed value is rejected. -/
theorem check_tags_normalizes_witness :
    [("hi", ["greeting"]), ("okay", ["medium_rare", "thanks", "yes"])]
        = ([("hi", TagVal.str "greeting"),
            ("okay", TagVal.list ["medium_rare", "thanks", "yes"])].map
            (fun e => (e.1, promoteVal e.2))) ∧
    (∃ m, check_tags [("bad", TagVal.other "int")] = Except.error m) :=
  ⟨((check_tags_normalizes [("hi", TagVal.str "greeting"),
      ("okay", TagVal.list ["medium_rare", "thanks", "yes"])]).1
      [("hi", ["greeting"]), ("okay", ["medium_rare", "thanks", "yes"])] rfl).1,
   (check_tags_normalizes [("bad", TagVal.other "int")]).2
     ⟨("bad", TagVal.other "int"), by simp, rfl⟩⟩

/-- C10: `go_to_state` is atomic on error.  The on-enter producer is invoked
before the state assignment, so whenever the call returns an error, whether
the state is undeclared, is the default state, or its producer is missing or
raises, the bot, in particular its current state, is unchanged. -/
theorem go_to_state_atomic_on_error (on_enter : String → Method) (bot : ChatBot)
    (s : String) (e : PyErr) (h : (go_to_state on_enter bot s).2 = Except.error e) :
    (go_to_state on_enter bot s).1 = bot := by
  by_cases h1 : s ∈ bot.STATES
  · by_cases h2 : s = bot.default_state
    · subst h2
      simp [go_to_state, h1]
    · cases hm : on_enter s with
      | missing => simp [go_to_state, h1, h2, hm]
      | raises => simp [go_to_state, h1, h2, hm]
      | returns text =>
        simp [go_to_state, h1, h2, hm] at h
  · simp [go_to_state, h1]

/-- Witness for C10: a failed transition, here a missing on-enter producer,
leaves the bot exactly as it was. -/
theorem go_to_state_atomic_on_error_witness :
    (go_to_state (fun _ => Method.missing) ⟨["waiting", "sciac"], "waiting", "waiting"⟩
        "sciac").1
      = ⟨["waiting", "sciac"], "waiting", "waiting"⟩ :=
  go_to_state_atomic_on_error (fun _ => Method.missing)
    ⟨["waiting", "sciac"], "waiting", "waiting"⟩ "sciac" PyErr.attributeError rfl

end OxyBot
